import Mathlib

/-!
Verification development for the ChillConnect booking platform.

The data model and the frontend operations are embedded from
`src/frontend/src/pages/Booking.tsx`, `src/frontend/src/pages/Providers.tsx`
and `src/frontend/src/contexts/AuthContext.tsx`.  Backend components
(TokenLedger, OTPGate, BookingStateMachine endpoint, AssignmentScheduler)
live outside the repository snapshot; they are modelled from the spec, and
each such definition is marked `Modelled from the spec:` in its doc comment.
-/

namespace ChillConnect

/-- Booking status, from the `Booking` interface in `Booking.tsx`. -/
inductive Status
  | pending
  | confirmed
  | in_progress
  | completed
  | cancelled
deriving DecidableEq, Repr

/-- User roles, from the `User` interface in `AuthContext.tsx`. -/
inductive Role
  | seeker
  | provider
  | employee
  | manager
  | admin
  | super_admin
deriving DecidableEq, Repr

/-- Booking service mode, from the `Booking` interface in `Booking.tsx`. -/
inductive BookingType
  | incall
  | outcall
deriving DecidableEq, Repr

/-- The authenticated user, restricted to the fields the booking page reads. -/
structure User where
  id : Nat
  role : Role
deriving DecidableEq, Repr

/-- The `Booking` interface of `Booking.tsx`. -/
structure Booking where
  id : Nat
  provider_id : Nat
  provider_name : String
  seeker_id : Nat
  start_time : String
  duration_hours : Nat
  total_tokens : Nat
  booking_type : BookingType
  status : Status
  location : Option String
  special_requests : Option String
  created_at : String
deriving DecidableEq, Repr

/-- The action strings dispatched to `canPerformAction` in `Booking.tsx`. -/
inductive Action
  | confirm
  | start
  | complete
  | cancel
  | rate
  | view_otp
deriving DecidableEq, Repr

/-- `user?.role === 'provider' && booking.provider_id === user.id`
(`Booking.tsx:255`). -/
def isProvider (u : Option User) (b : Booking) : Bool :=
  match u with
  | some usr => usr.role == Role.provider && b.provider_id == usr.id
  | none => false

/-- `user?.role === 'seeker' && booking.seeker_id === user.id`
(`Booking.tsx:256`). -/
def isSeeker (u : Option User) (b : Booking) : Bool :=
  match u with
  | some usr => usr.role == Role.seeker && b.seeker_id == usr.id
  | none => false

/-- `canPerformAction` from `Booking.tsx:254-274`. -/
def canPerformAction (u : Option User) (b : Booking) (a : Action) : Bool :=
  match a with
  | .confirm => isProvider u b && b.status == .pending
  | .start => isProvider u b && b.status == .confirmed
  | .complete => isProvider u b && b.status == .in_progress
  | .cancel =>
      (isSeeker u b || isProvider u b) && (b.status == .pending || b.status == .confirmed)
  | .rate => b.status == .completed && (isSeeker u b || isProvider u b)
  | .view_otp => isSeeker u b && b.status == .confirmed

/-- Spec wording: the actor is the booking's assigned provider. -/
def ActorIsAssignedProvider (u : Option User) (b : Booking) : Prop :=
  ∃ usr, u = some usr ∧ usr.role = Role.provider ∧ b.provider_id = usr.id

/-- Spec wording: the actor is the booking's seeker. -/
def ActorIsBookingSeeker (u : Option User) (b : Booking) : Prop :=
  ∃ usr, u = some usr ∧ usr.role = Role.seeker ∧ b.seeker_id = usr.id

/-! ### OTPGate (spec-modelled; per-booking state) -/

/-- OTP challenge purposes, from spec §4.3. -/
inductive Purpose
  | seeker_generated
  | provider_sms
deriving DecidableEq, Repr

/-- Modelled from the spec: an `OTPChallenge` record.  The gate state below is
scoped to a single booking, so the `booking_id` scoping key is implicit. -/
structure OTPChallenge where
  purpose : Purpose
  code : String
  expires_at : Nat
  consumed : Bool
deriving DecidableEq, Repr

/-- Modelled from the spec: the OTP gate state for one booking — its
challenges and the shared cumulative failed-attempt counter. -/
structure GateState where
  challenges : List OTPChallenge
  attempts : Nat
deriving DecidableEq, Repr

/-- A challenge is live when it is unconsumed and unexpired. -/
def OTPChallenge.live (now : Nat) (ch : OTPChallenge) : Bool :=
  !ch.consumed && now < ch.expires_at

/-- Modelled from the spec: lockout threshold of 5 cumulative failed attempts
(spec §4.3; the repository's backend OTP code is not in the snapshot). -/
def MAX_OTP_ATTEMPTS : Nat := 5

/-- Outcomes of OTP verification, named after the spec's error taxonomy. -/
inductive VerifyResult
  | success
  | InvalidCode
  | ExpiredCode
  | TooManyAttempts
deriving DecidableEq, Repr

/-- Mark the first live challenge matching `code` as consumed. -/
def consumeMatching (now : Nat) (code : String) : List OTPChallenge → List OTPChallenge
  | [] => []
  | ch :: rest =>
      if ch.live now && ch.code == code then { ch with consumed := true } :: rest
      else ch :: consumeMatching now code rest

/-- Modelled from the spec: `OTPGate.verify`/`consume`.  Checks both purposes'
live challenges; a match consumes the challenge; a failure increments the one
shared attempt counter; at or past 5 cumulative failed attempts every call is
answered `TooManyAttempts` without touching the state. -/
def verifyOtp (g : GateState) (now : Nat) (code : String) : VerifyResult × GateState :=
  if MAX_OTP_ATTEMPTS ≤ g.attempts then (.TooManyAttempts, g)
  else if g.challenges.any (fun ch => ch.live now && ch.code == code) then
    (.success, { g with challenges := consumeMatching now code g.challenges })
  else if g.challenges.any (fun ch => !ch.consumed && ch.code == code) then
    (.ExpiredCode, { g with attempts := g.attempts + 1 })
  else
    (.InvalidCode, { g with attempts := g.attempts + 1 })

/-- Challenge expiry in minutes: 30 for `seeker_generated`, 10 for
`provider_sms` (spec §4.3; also shown in the `Booking.tsx` modals). -/
def expiryMinutes : Purpose → Nat
  | .seeker_generated => 30
  | .provider_sms => 10

/-- Render a number as a 6-character decimal code, leading zeros allowed. -/
def codeOfNat (f : Nat) : String :=
  String.mk ((List.range 6).map (fun i => Char.ofNat (48 + f / 10 ^ (5 - i) % 10)))

/-- Modelled from the spec: `OTPGate.request(booking_id, purpose)` — the
backend generate-OTP endpoints are not in the snapshot.  Invalidates any live
challenge of the same purpose, creates a fresh 6-digit challenge, and returns
the code to the caller only for `seeker_generated`. -/
def requestOtp (g : GateState) (now : Nat) (purpose : Purpose) (fresh : Nat) :
    GateState × Option String :=
  let invalidated := g.challenges.map (fun ch =>
    if ch.purpose == purpose && ch.live now then { ch with consumed := true } else ch)
  let code := codeOfNat fresh
  let newCh : OTPChallenge :=
    { purpose := purpose, code := code, expires_at := now + 60 * expiryMinutes purpose,
      consumed := false }
  ({ challenges := newCh :: invalidated, attempts := g.attempts },
   if purpose == Purpose.seeker_generated then some code else none)

/-! ### TokenLedger (spec-modelled) -/

/-- An escrow hold tying a booking to a reserved amount (spec §3). -/
structure EscrowHold where
  booking_id : Nat
  amount : Nat
deriving DecidableEq, Repr

/-- Modelled from the spec: the ledger state around one seeker wallet, the
provider's balance, the platform account and the escrow holds. -/
structure LedgerState where
  available_balance : Int
  escrow_balance : Int
  provider_balance : Int
  platform_balance : Int
  holds : List EscrowHold
deriving DecidableEq, Repr

/-- Ledger errors from the spec's taxonomy (§7). -/
inductive LedgerError
  | InsufficientBalance
  | NoActiveHold
deriving DecidableEq, Repr

/-- Modelled from the spec: `reserve(seeker, amount, booking_id)` — fails with
`InsufficientBalance` when `available_balance < amount`, otherwise decrements
the available balance and creates one hold for the booking. -/
def reserve (l : LedgerState) (amount : Nat) (bid : Nat) : Except LedgerError LedgerState :=
  if l.available_balance < (amount : Int) then .error .InsufficientBalance
  else .ok { l with
    available_balance := l.available_balance - (amount : Int),
    escrow_balance := l.escrow_balance + (amount : Int),
    holds := ⟨bid, amount⟩ :: l.holds }

/-- One reserve call in a sequence: on failure the wallet is left as it was. -/
def reserveStep (l : LedgerState) (req : Nat × Nat) : LedgerState :=
  match reserve l req.1 req.2 with
  | .ok l' => l'
  | .error _ => l

/-- Provider share of a released hold: `floor(amount × (1 − commission_rate))`
(spec §4.2). -/
def providerShare (amount : Nat) (rate : ℚ) : Int :=
  Int.floor ((amount : ℚ) * (1 - rate))

/-- Provider amount in tokens. -/
def providerTokens (amount : Nat) (rate : ℚ) : Nat :=
  (providerShare amount rate).toNat

/-- Platform amount: the remainder `amount − provider_amount` (spec §4.2). -/
def platformTokens (amount : Nat) (rate : ℚ) : Nat :=
  amount - providerTokens amount rate

/-- Modelled from the spec: `release(booking_id)` — looks up the hold, fails
with `NoActiveHold` when absent, otherwise credits the provider with
`floor(amount × (1 − rate))`, the platform with the remainder, and deletes the
hold. -/
def release (l : LedgerState) (bid : Nat) (rate : ℚ) : Except LedgerError LedgerState :=
  match l.holds.find? (fun h => h.booking_id == bid) with
  | none => .error .NoActiveHold
  | some h =>
    .ok { l with
      provider_balance := l.provider_balance + (providerTokens h.amount rate : Int),
      platform_balance := l.platform_balance + (platformTokens h.amount rate : Int),
      escrow_balance := l.escrow_balance - (h.amount : Int),
      holds := l.holds.eraseP (fun h2 => h2.booking_id == bid) }

/-- Modelled from the spec: `refund(booking_id)` — credits the full hold
amount back to the seeker and deletes the hold. -/
def refund (l : LedgerState) (bid : Nat) : Except LedgerError LedgerState :=
  match l.holds.find? (fun h => h.booking_id == bid) with
  | none => .error .NoActiveHold
  | some h =>
    .ok { l with
      available_balance := l.available_balance + (h.amount : Int),
      escrow_balance := l.escrow_balance - (h.amount : Int),
      holds := l.holds.eraseP (fun h2 => h2.booking_id == bid) }

/-! ### Booking creation (Providers.tsx fee formula + spec-modelled reserve) -/

/-- `calculateTotalCost` from `Providers.tsx:154-159`:
`baseCost + Math.floor(baseCost * 0.05)`, with the float literal `0.05` read
as the exact rational 5/100. -/
def calculateTotalCost (hourly_rate duration_hours : Nat) : Nat :=
  let baseCost := hourly_rate * duration_hours
  let processingFee := baseCost * 5 / 100
  baseCost + processingFee

/-- Modelled from the spec: `createBooking` — the backend create endpoint is
not in the snapshot.  Computes `total_tokens` once, reserves it, and returns
the pending booking together with the updated ledger. -/
def createBooking (bid seeker_id provider_id : Nat) (provider_name start_time : String)
    (duration_hours hourly_rate : Nat) (btype : BookingType)
    (location special_requests : Option String) (created_at : String)
    (l : LedgerState) : Except LedgerError (Booking × LedgerState) :=
  let total := calculateTotalCost hourly_rate duration_hours
  match reserve l total bid with
  | .error e => .error e
  | .ok l' =>
    .ok ({ id := bid, provider_id := provider_id, provider_name := provider_name,
           seeker_id := seeker_id, start_time := start_time,
           duration_hours := duration_hours, total_tokens := total,
           booking_type := btype, status := Status.pending, location := location,
           special_requests := special_requests, created_at := created_at }, l')

/-! ### BookingStateMachine endpoint (spec-modelled) -/

/-- The transition action requested by a target status, per the legal
transition table (spec §4.1): `pending` is never a transition target. -/
def actionFor : Status → Option Action
  | .confirmed => some .confirm
  | .in_progress => some .start
  | .completed => some .complete
  | .cancelled => some .cancel
  | .pending => none

/-- Errors of `updateBookingStatus`, from the spec's taxonomy (§6, §7). -/
inductive UpdateError
  | IllegalTransition
  | InvalidCode
  | ExpiredCode
  | TooManyAttempts
  | NoActiveHold
deriving DecidableEq, Repr

/-- The full per-booking server state: the booking row, its OTP gate and the
ledger. -/
structure SysState where
  booking : Booking
  gate : GateState
  ledger : LedgerState
deriving DecidableEq, Repr

/-- Modelled from the spec: the backend
`updateBookingStatus(booking_id, actor, target_status, otp_code?)` endpoint —
not in the snapshot.  Permission is the frontend's `canPerformAction` table;
a denied combination answers `IllegalTransition` and leaves the state
untouched; the confirmed→in_progress transition requires a successful OTP
consumption and performs no ledger operation; completion releases the hold
and cancellation refunds it. -/
def updateBookingStatusSM (rate : ℚ) (s : SysState) (actor : Option User)
    (target : Status) (otp : Option String) (now : Nat) :
    SysState × Option UpdateError :=
  match actionFor target with
  | none => (s, some .IllegalTransition)
  | some a =>
    if canPerformAction actor s.booking a then
      match a with
      | .confirm => ({ s with booking := { s.booking with status := target } }, none)
      | .start =>
        match otp with
        | none => (s, some .InvalidCode)
        | some code =>
          match verifyOtp s.gate now code with
          | (.success, g') =>
              ({ s with booking := { s.booking with status := target }, gate := g' }, none)
          | (.InvalidCode, g') => ({ s with gate := g' }, some .InvalidCode)
          | (.ExpiredCode, g') => ({ s with gate := g' }, some .ExpiredCode)
          | (.TooManyAttempts, g') => ({ s with gate := g' }, some .TooManyAttempts)
      | .complete =>
        match release s.ledger s.booking.id rate with
        | .ok l' =>
            ({ s with booking := { s.booking with status := target }, ledger := l' }, none)
        | .error _ => (s, some .NoActiveHold)
      | .cancel =>
        match refund s.ledger s.booking.id with
        | .ok l' =>
            ({ s with booking := { s.booking with status := target }, ledger := l' }, none)
        | .error _ => (s, some .NoActiveHold)
      | .rate => (s, some .IllegalTransition)
      | .view_otp => (s, some .IllegalTransition)
    else (s, some .IllegalTransition)

/-! ### Frontend operations from Booking.tsx -/

/-- The `BookingUpdate` payload interface of `Booking.tsx:39-42`. -/
structure BookingUpdate where
  status : Status
  otp_code : Option String
deriving DecidableEq, Repr

/-- The payload construction in `updateBookingStatus` (`Booking.tsx:104-107`):
`otp_code` is attached only when the `otpCode` argument is truthy (present and
non-empty). -/
def buildPayload (status : Status) (otpCode : Option String) : BookingUpdate :=
  { status := status,
    otp_code := match otpCode with
      | some c => if c.isEmpty then none else some c
      | none => none }

/-- The optimistic local state update in `updateBookingStatus`
(`Booking.tsx:112-118`): map over the list, replacing only the status of
bookings whose id matches. -/
def setBookingsUpdate (bookings : List Booking) (bookingId : Nat) (status : Status) :
    List Booking :=
  bookings.map (fun b => if b.id == bookingId then { b with status := status } else b)

/-- `updateBookingStatus` as it affects the `bookings` list
(`Booking.tsx:101-132`): on server success the local map update runs; on a
server error the catch branch only shows a toast, leaving the list unchanged. -/
def updateBookingStatusLocal (bookings : List Booking) (bookingId : Nat)
    (status : Status) (serverOk : Bool) : List Booking :=
  if serverOk then setBookingsUpdate bookings bookingId status else bookings

/-- `verifyOtpAndStartService` (`Booking.tsx:155-167`): refuses to dispatch
without a code or a booking id; otherwise dispatches an `in_progress` update
carrying the entered code. -/
def verifyOtpAndStartService (otpCode : String) (otpBookingId : Option Nat) :
    Option (Nat × BookingUpdate) :=
  match otpBookingId with
  | none => none
  | some bid =>
      if otpCode.isEmpty || bid == 0 then none
      else some (bid, buildPayload Status.in_progress (some otpCode))

/-- The OTP input sanitizer (`Booking.tsx:758`):
`e.target.value.replace(/\D/g, '').slice(0, 6)`. -/
def sanitizeOtpInput (raw : String) : String :=
  String.mk ((raw.toList.filter Char.isDigit).take 6)

/-- The Start Service button guard (`Booking.tsx:786-792`): enabled only when
no action is loading and the entered code has exactly 6 characters. -/
def startServiceEnabled (actionLoading : Bool) (otpCode : String) : Bool :=
  !actionLoading && otpCode.length == 6

/-- Events that write the `otpCode` state in `Booking.tsx`: the input
sanitizer, and the several `setOtpCode('')` resets. -/
inductive OtpInputEvent
  | input (raw : String)
  | clear
deriving Repr

/-- One `otpCode` state write. -/
def applyOtpEvent (_cur : String) (e : OtpInputEvent) : String :=
  match e with
  | .input raw => sanitizeOtpInput raw
  | .clear => ""

/-- The `otpCode` state after a sequence of writes, from the initial `''`. -/
def otpStateAfter (events : List OtpInputEvent) : String :=
  events.foldl applyOtpEvent ""

/-! ### AssignmentScheduler (spec-modelled) -/

/-- Modelled from the spec: an assignment pool with its ordered active staff
list and persisted rotation cursor (spec §4.4). -/
structure AssignmentPool where
  active_list : List Nat
  cursor : Nat
deriving DecidableEq, Repr

/-- Scheduler error from the spec's taxonomy. -/
inductive SchedError
  | NoAvailableStaff
deriving DecidableEq, Repr

/-- Work item status (spec §3). -/
inductive WStatus
  | unassigned
  | assigned
  | resolved
deriving DecidableEq, Repr

/-- A verification request or dispute awaiting staff action (spec §3). -/
structure WorkItem where
  status : WStatus
  assigned_to : Option Nat
deriving DecidableEq, Repr

/-- Modelled from the spec: `next(pool)` — fails with `NoAvailableStaff` on an
empty active list; otherwise selects `active_list[c mod len]` and advances the
cursor to `(c + 1) mod len`. -/
def nextStaff (p : AssignmentPool) : Except SchedError (Nat × AssignmentPool) :=
  if h : p.active_list.length = 0 then .error .NoAvailableStaff
  else
    let n := p.active_list.length
    .ok (p.active_list.get ⟨p.cursor % n, Nat.mod_lt _ (Nat.pos_of_ne_zero h)⟩,
         { p with cursor := (p.cursor + 1) % n })

/-- Modelled from the spec: `assign(work_item, pool)` — on success marks the
item assigned to the selected staff member; on `NoAvailableStaff` the item
stays `unassigned`. -/
def assign (w : WorkItem) (p : AssignmentPool) : WorkItem × AssignmentPool :=
  match nextStaff p with
  | .error _ => (w, p)
  | .ok (staff, p') => ({ status := WStatus.assigned, assigned_to := some staff }, p')

/-- The staff members selected by `k` consecutive `next` calls, with the final
pool state. -/
def runNext : AssignmentPool → Nat → List Nat × AssignmentPool
  | p, 0 => ([], p)
  | p, k + 1 =>
    match nextStaff p with
    | .error _ => ([], p)
    | .ok (s, p') =>
      let rest := runNext p' k
      (s :: rest.1, rest.2)

/-- Number of `j < k` with `(c + j) % n = i`: how often the rotation starting
at cursor `c` selects index `i` within `k` calls. -/
def hitCount (n c i : Nat) : Nat → Nat
  | 0 => 0
  | k + 1 => hitCount n c i k + (if (c + k) % n = i then 1 else 0)

/-! ### Spec-side predicates and concrete fixtures -/

/-- Spec wording for the frame property: the updated booking differs from the
original in the status field alone. -/
def OnlyStatusChanged (b b' : Booking) (status : Status) : Prop :=
  b'.id = b.id ∧ b'.provider_id = b.provider_id ∧ b'.provider_name = b.provider_name ∧
  b'.seeker_id = b.seeker_id ∧ b'.start_time = b.start_time ∧
  b'.duration_hours = b.duration_hours ∧ b'.total_tokens = b.total_tokens ∧
  b'.booking_type = b.booking_type ∧ b'.status = status ∧
  b'.location = b.location ∧ b'.special_requests = b.special_requests ∧
  b'.created_at = b.created_at

/-- Sample provider account. -/
def providerUser : User := { id := 7, role := Role.provider }

/-- Sample seeker account. -/
def seekerUser : User := { id := 3, role := Role.seeker }

/-- Sample pending booking of `seekerUser` with `providerUser`. -/
def booking1 : Booking :=
  { id := 1, provider_id := 7, provider_name := "Pat", seeker_id := 3,
    start_time := "2025-01-01T10:00", duration_hours := 2, total_tokens := 420,
    booking_type := BookingType.outcall, status := Status.pending,
    location := none, special_requests := none, created_at := "2024-12-30" }

/-- Sample confirmed booking. -/
def booking2 : Booking :=
  { booking1 with id := 2, status := Status.confirmed }

/-- A fresh seeker wallet with 500 tokens and no holds. -/
def ledger500 : LedgerState :=
  { available_balance := 500, escrow_balance := 0, provider_balance := 0,
    platform_balance := 0, holds := [] }

/-- The ledger after reserving 420 tokens for booking 2. -/
def ledgerHeld : LedgerState :=
  { available_balance := 80, escrow_balance := 420, provider_balance := 0,
    platform_balance := 0, holds := [{ booking_id := 2, amount := 420 }] }

/-- The ledger after reserving 420 tokens for booking 1. -/
def ledgerHeld1 : LedgerState :=
  { available_balance := 80, escrow_balance := 420, provider_balance := 0,
    platform_balance := 0, holds := [{ booking_id := 1, amount := 420 }] }

/-- The ledger after releasing the 420-token hold at a 15% commission. -/
def ledgerReleased : LedgerState :=
  { available_balance := 80, escrow_balance := 0, provider_balance := 357,
    platform_balance := 63, holds := [] }

/-- A gate holding one live seeker-generated challenge. -/
def gateLive : GateState :=
  { challenges := [{ purpose := Purpose.seeker_generated, code := "123456",
                     expires_at := 1800, consumed := false }],
    attempts := 0 }

/-- The same gate locked after five failed attempts. -/
def gateLocked : GateState :=
  { gateLive with attempts := 5 }

/-- Server state for the confirmed booking 2. -/
def sysConfirmed : SysState :=
  { booking := booking2, gate := gateLive, ledger := ledgerHeld }

/-- The gate after the live challenge has been consumed. -/
def gateConsumed : GateState :=
  { challenges := [{ purpose := Purpose.seeker_generated, code := "123456",
                     expires_at := 1800, consumed := true }],
    attempts := 0 }

/-- Server state after the start-service transition of booking 2. -/
def sysStarted : SysState :=
  { booking := { booking2 with status := Status.in_progress }, gate := gateConsumed,
    ledger := ledgerHeld }

/-- Sample three-member staff pool with the cursor at zero. -/
def pool3 : AssignmentPool := { active_list := [10, 20, 30], cursor := 0 }

/-- An empty staff pool. -/
def poolEmpty : AssignmentPool := { active_list := [], cursor := 2 }

/-- A fresh unassigned work item. -/
def workItem0 : WorkItem := { status := WStatus.unassigned, assigned_to := none }

/-! ## Theorems -/

theorem isProvider_iff (u : Option User) (b : Booking) :
    isProvider u b = true ↔ ActorIsAssignedProvider u b := by
  cases u with
  | none => simp [isProvider, ActorIsAssignedProvider]
  | some usr =>
      simp only [isProvider, Bool.and_eq_true, beq_iff_eq, ActorIsAssignedProvider]
      constructor
      · rintro ⟨hr, hid⟩
        exact ⟨usr, rfl, hr, hid⟩
      · rintro ⟨usr', h, hr, hid⟩
        cases Option.some.inj h
        exact ⟨hr, hid⟩

theorem isSeeker_iff (u : Option User) (b : Booking) :
    isSeeker u b = true ↔ ActorIsBookingSeeker u b := by
  cases u with
  | none => simp [isSeeker, ActorIsBookingSeeker]
  | some usr =>
      simp only [isSeeker, Bool.and_eq_true, beq_iff_eq, ActorIsBookingSeeker]
      constructor
      · rintro ⟨hr, hid⟩
        exact ⟨usr, rfl, hr, hid⟩
      · rintro ⟨usr', h, hr, hid⟩
        cases Option.some.inj h
        exact ⟨hr, hid⟩

theorem setBookingsUpdate_getElem (bookings : List Booking) (bookingId : Nat)
    (status : Status) (i : Nat) :
    (setBookingsUpdate bookings bookingId status)[i]? =
      (bookings[i]?).map
        (fun b => if b.id == bookingId then { b with status := status } else b) := by
  simp [setBookingsUpdate]

/-- **C9.** A successful `updateBookingStatus` call changes only the status
field of the booking whose id equals `bookingId`, leaving every other field of
that booking and every other booking in the list unchanged; a failed server
request leaves the whole bookings list unchanged. -/
theorem updateBookingStatus_frame (bookings : List Booking) (bookingId : Nat)
    (status : Status) :
    (∀ serverOk, serverOk = false →
        updateBookingStatusLocal bookings bookingId status serverOk = bookings) ∧
    (updateBookingStatusLocal bookings bookingId status true).length = bookings.length ∧
    (∀ (i : Nat) (b : Booking), bookings[i]? = some b →
      ∃ b', (updateBookingStatusLocal bookings bookingId status true)[i]? = some b' ∧
        (b.id = bookingId → OnlyStatusChanged b b' status) ∧
        (b.id ≠ bookingId → b' = b)) := by
  refine ⟨?_, ?_, ?_⟩
  · intro serverOk h; subst h; rfl
  · simp [updateBookingStatusLocal, setBookingsUpdate]
  · intro i b hb
    refine ⟨if b.id == bookingId then { b with status := status } else b, ?_, ?_, ?_⟩
    · rw [updateBookingStatusLocal, if_pos rfl, setBookingsUpdate_getElem, hb]
      rfl
    · intro hid
      rw [if_pos (beq_iff_eq.mpr hid)]
      exact ⟨rfl, rfl, rfl, rfl, rfl, rfl, rfl, rfl, rfl, rfl, rfl, rfl⟩
    · intro hid
      simp [hid]

/-- Witness for C9 at a concrete two-element list. -/
theorem updateBookingStatus_frame_witness :
    updateBookingStatusLocal [booking1, booking2] 1 Status.confirmed false =
      [booking1, booking2] ∧
    ∃ b', (updateBookingStatusLocal [booking1, booking2] 1 Status.confirmed true)[0]? =
        some b' ∧ OnlyStatusChanged booking1 b' Status.confirmed := by
  constructor
  · exact (updateBookingStatus_frame [booking1, booking2] 1 Status.confirmed).1 false rfl
  · obtain ⟨b', h1, h2, _⟩ :=
      (updateBookingStatus_frame [booking1, booking2] 1 Status.confirmed).2.2 0 booking1 rfl
    exact ⟨b', h1, h2 rfl⟩

theorem sanitizeOtpInput_spec (raw : String) :
    (sanitizeOtpInput raw).length ≤ 6 ∧
    ∀ c ∈ (sanitizeOtpInput raw).toList, c.isDigit = true := by
  constructor
  · show ((raw.toList.filter Char.isDigit).take 6).length ≤ 6
    rw [List.length_take]
    exact min_le_left _ _
  · intro c hc
    exact List.of_mem_filter (List.mem_of_mem_take hc)

/-- **C10.** The OTP code held in the start-service modal state is always a
string of at most 6 decimal digits, and the Start Service dispatch is enabled
only when the entered code is exactly 6 digits long. -/
theorem otpInput_six_digit_guard :
    (∀ events, (otpStateAfter events).length ≤ 6 ∧
       ∀ c ∈ (otpStateAfter events).toList, c.isDigit = true) ∧
    (∀ events actionLoading,
       startServiceEnabled actionLoading (otpStateAfter events) = true →
       (otpStateAfter events).length = 6 ∧
       ∀ c ∈ (otpStateAfter events).toList, c.isDigit = true) := by
  have key : ∀ events, (otpStateAfter events).length ≤ 6 ∧
      ∀ c ∈ (otpStateAfter events).toList, c.isDigit = true := by
    intro events
    suffices h : ∀ init : String, init.length ≤ 6 → (∀ c ∈ init.toList, c.isDigit = true) →
        (events.foldl applyOtpEvent init).length ≤ 6 ∧
        ∀ c ∈ (events.foldl applyOtpEvent init).toList, c.isDigit = true by
      refine h "" ?_ ?_ <;> simp
    induction events with
    | nil => intro init h1 h2; exact ⟨h1, h2⟩
    | cons e rest ih =>
        intro init h1 h2
        cases e with
        | input raw =>
            exact ih _ (sanitizeOtpInput_spec raw).1 (sanitizeOtpInput_spec raw).2
        | clear =>
            refine ih "" ?_ ?_ <;> simp
  refine ⟨key, ?_⟩
  intro events actionLoading h
  rw [startServiceEnabled, Bool.and_eq_true, beq_iff_eq] at h
  exact ⟨h.2, (key events).2⟩

/-- Witness for C10 on a concrete raw input containing non-digit characters. -/
theorem otpInput_six_digit_guard_witness :
    (otpStateAfter [OtpInputEvent.input "12ab3456x789"]).length = 6 ∧
    ∀ c ∈ (otpStateAfter [OtpInputEvent.input "12ab3456x789"]).toList,
      c.isDigit = true := by
  exact otpInput_six_digit_guard.2 [OtpInputEvent.input "12ab3456x789"] false (by decide)

/-- **C1.** The transition actions are permitted exactly per the
legal-transition table — confirm by the assigned provider from pending, start
by the assigned provider from confirmed, complete by the assigned provider
from in_progress, cancel by the booking's seeker or provider from pending or
confirmed — and every other combination of actor, status and requested
transition is denied with `IllegalTransition`, leaving the state unchanged. -/
theorem transition_permission_table (u : Option User) (b : Booking) :
    (canPerformAction u b .confirm = true ↔
      ActorIsAssignedProvider u b ∧ b.status = Status.pending) ∧
    (canPerformAction u b .start = true ↔
      ActorIsAssignedProvider u b ∧ b.status = Status.confirmed) ∧
    (canPerformAction u b .complete = true ↔
      ActorIsAssignedProvider u b ∧ b.status = Status.in_progress) ∧
    (canPerformAction u b .cancel = true ↔
      (ActorIsBookingSeeker u b ∨ ActorIsAssignedProvider u b) ∧
      (b.status = Status.pending ∨ b.status = Status.confirmed)) ∧
    (∀ (rate : ℚ) (s : SysState) (target : Status) (otp : Option String) (now : Nat),
      s.booking = b →
      (∀ a, actionFor target = some a → canPerformAction u b a = false) →
      updateBookingStatusSM rate s u target otp now = (s, some .IllegalTransition)) := by
  refine ⟨?_, ?_, ?_, ?_, ?_⟩
  · simp [canPerformAction, isProvider_iff]
  · simp [canPerformAction, isProvider_iff]
  · simp [canPerformAction, isProvider_iff]
  · simp [canPerformAction, isProvider_iff, isSeeker_iff]
  · intro rate s target otp now hs hdeny
    subst hs
    cases target with
    | pending => rfl
    | confirmed =>
        have hfalse := hdeny .confirm rfl
        simp [updateBookingStatusSM, actionFor, hfalse]
    | in_progress =>
        have hfalse := hdeny .start rfl
        simp [updateBookingStatusSM, actionFor, hfalse]
    | completed =>
        have hfalse := hdeny .complete rfl
        simp [updateBookingStatusSM, actionFor, hfalse]
    | cancelled =>
        have hfalse := hdeny .cancel rfl
        simp [updateBookingStatusSM, actionFor, hfalse]

/-- Witness for C1: the assigned provider may confirm a pending booking, and a
seeker requesting completion of a confirmed booking gets `IllegalTransition`
with the state unchanged. -/
theorem transition_permission_table_witness :
    canPerformAction (some providerUser) booking1 .confirm = true ∧
    updateBookingStatusSM (15/100) sysConfirmed (some seekerUser) Status.completed
        none 0 = (sysConfirmed, some .IllegalTransition) := by
  constructor
  · exact (transition_permission_table (some providerUser) booking1).1.mpr
      ⟨⟨providerUser, rfl, rfl, rfl⟩, rfl⟩
  · refine (transition_permission_table (some seekerUser) booking2).2.2.2.2 (15/100)
      sysConfirmed Status.completed none 0 rfl ?_
    intro a ha
    injection ha with ha
    subst ha
    decide

/-- **C2.** A booking never moves from confirmed to in_progress without a
successful OTP verification: the frontend dispatch always attaches a
non-empty `otp_code` to an in_progress request, a successful backend
transition implies the OTP gate consumed the submitted code, and the
transition performs no ledger operation. -/
theorem in_progress_requires_otp :
    (∀ (code : String) (obid : Option Nat) (bid : Nat) (payload : BookingUpdate),
        verifyOtpAndStartService code obid = some (bid, payload) →
        payload.status = Status.in_progress ∧ payload.otp_code = some code ∧ code ≠ "") ∧
    (∀ (rate : ℚ) (s : SysState) (actor : Option User) (otp : Option String) (now : Nat)
        (s' : SysState),
        updateBookingStatusSM rate s actor Status.in_progress otp now = (s', none) →
        s.booking.status = Status.confirmed ∧
        ∃ code g', otp = some code ∧ verifyOtp s.gate now code = (.success, g') ∧
          s'.gate = g' ∧ s'.ledger = s.ledger ∧
          s'.booking.status = Status.in_progress) := by
  constructor
  · intro code obid bid payload h
    cases obid with
    | none => exact absurd h (by simp [verifyOtpAndStartService])
    | some b0 =>
        rw [verifyOtpAndStartService] at h
        by_cases hc : (code.isEmpty || b0 == 0) = true
        · rw [if_pos hc] at h; exact absurd h (by simp)
        · rw [if_neg hc] at h
          injection h with h
          injection h with h1 h2
          subst h2
          simp only [Bool.or_eq_true, not_or, Bool.not_eq_true, beq_iff_eq] at hc
          refine ⟨rfl, ?_, ?_⟩
          · rw [buildPayload]
            simp [hc.1]
          · intro hempty
            subst hempty
            exact absurd hc.1 (by decide)
  · intro rate s actor otp now s' h
    rw [updateBookingStatusSM.eq_def] at h
    simp only [actionFor] at h
    by_cases hperm : canPerformAction actor s.booking .start = true
    · rw [if_pos hperm] at h
      have hconf : s.booking.status = Status.confirmed := by
        rw [canPerformAction, Bool.and_eq_true, beq_iff_eq] at hperm
        exact hperm.2
      cases otp with
      | none => exact absurd h (by simp)
      | some code =>
          simp only [] at h
          rcases hv : verifyOtp s.gate now code with ⟨res, g'⟩
          rw [hv] at h
          cases res with
          | success =>
              injection h with h1 h2
              subst h1
              exact ⟨hconf, code, g', rfl, hv, rfl, rfl, rfl⟩
          | InvalidCode => exact absurd h (by simp)
          | ExpiredCode => exact absurd h (by simp)
          | TooManyAttempts => exact absurd h (by simp)
    · rw [if_neg hperm] at h
      exact absurd h (by simp)

/-- Witness for C2: the provider starts booking 2 with the live code 123456;
the dispatched payload carries the code and the ledger is untouched. -/
theorem in_progress_requires_otp_witness :
    ((buildPayload Status.in_progress (some "123456")).status = Status.in_progress ∧
      (buildPayload Status.in_progress (some "123456")).otp_code = some "123456" ∧
      "123456" ≠ "") ∧
    sysConfirmed.booking.status = Status.confirmed ∧
    ∃ code g', (some "123456" : Option String) = some code ∧
      verifyOtp sysConfirmed.gate 0 code = (.success, g') ∧
      sysStarted.gate = g' ∧ sysStarted.ledger = sysConfirmed.ledger ∧
      sysStarted.booking.status = Status.in_progress := by
  constructor
  · exact in_progress_requires_otp.1 "123456" (some 2) 2
      (buildPayload Status.in_progress (some "123456")) (by decide)
  · exact in_progress_requires_otp.2 (15/100) sysConfirmed (some providerUser)
      (some "123456") 0 sysStarted (by decide)

theorem providerShare_nonneg (amount : Nat) (rate : ℚ) (h1 : rate ≤ 1) :
    0 ≤ providerShare amount rate :=
  Int.floor_nonneg.mpr (mul_nonneg (by positivity) (by linarith))

theorem providerShare_le (amount : Nat) (rate : ℚ) (h0 : 0 ≤ rate) :
    providerShare amount rate ≤ amount := by
  have hcast : (0 : ℚ) ≤ (amount : ℚ) := by positivity
  have hle : (amount : ℚ) * (1 - rate) ≤ (amount : ℚ) := by nlinarith
  calc providerShare amount rate ≤ ⌊(amount : ℚ)⌋ := Int.floor_le_floor hle
    _ = amount := Int.floor_natCast amount

/-- **C4.** `release(booking_id)` splits the hold into
`provider_amount = floor(hold.amount × (1 − commission_rate))` and
`platform_amount = hold.amount − provider_amount`, so the two always sum to
the hold amount exactly and the platform absorbs the remainder. -/
theorem release_conservation (l : LedgerState) (bid : Nat) (rate : ℚ) (l' : LedgerState)
    (h0 : 0 ≤ rate) (h1 : rate ≤ 1)
    (hrel : release l bid rate = .ok l') :
    ∃ h, l.holds.find? (fun h2 => h2.booking_id == bid) = some h ∧
      providerTokens h.amount rate + platformTokens h.amount rate = h.amount ∧
      (providerTokens h.amount rate : Int) = Int.floor ((h.amount : ℚ) * (1 - rate)) ∧
      platformTokens h.amount rate = h.amount - providerTokens h.amount rate ∧
      l'.provider_balance + l'.platform_balance =
        l.provider_balance + l.platform_balance + h.amount := by
  rw [release] at hrel
  cases hfind : l.holds.find? (fun h2 => h2.booking_id == bid) with
  | none => rw [hfind] at hrel; exact absurd hrel (by simp)
  | some h =>
      rw [hfind] at hrel
      injection hrel with hrel
      subst hrel
      have hle : providerTokens h.amount rate ≤ h.amount :=
        Int.toNat_le.mpr (providerShare_le h.amount rate h0)
      have hsum : providerTokens h.amount rate + platformTokens h.amount rate = h.amount := by
        rw [platformTokens]
        omega
      refine ⟨h, rfl, hsum, ?_, rfl, ?_⟩
      · rw [providerTokens]
        exact Int.toNat_of_nonneg (providerShare_nonneg h.amount rate h1)
      · show l.provider_balance + (providerTokens h.amount rate : Int) +
            (l.platform_balance + (platformTokens h.amount rate : Int)) =
            l.provider_balance + l.platform_balance + (h.amount : Int)
        omega

/-- Witness for C4 at the 420-token hold and a 15% commission. -/
theorem release_conservation_witness :
    ∃ h, ledgerHeld.holds.find? (fun h2 => h2.booking_id == 2) = some h ∧
      providerTokens h.amount (15/100) + platformTokens h.amount (15/100) = h.amount ∧
      (providerTokens h.amount (15/100) : Int) =
        Int.floor ((h.amount : ℚ) * (1 - 15/100)) ∧
      platformTokens h.amount (15/100) = h.amount - providerTokens h.amount (15/100) ∧
      ledgerReleased.provider_balance + ledgerReleased.platform_balance =
        ledgerHeld.provider_balance + ledgerHeld.platform_balance + h.amount := by
  refine release_conservation ledgerHeld 2 (15/100) ledgerReleased
    (by norm_num) (by norm_num) ?_
  norm_num [release, ledgerHeld, ledgerReleased, providerTokens, platformTokens,
    providerShare, List.find?, List.eraseP]

/-- **C5.** `reserve` fails with `InsufficientBalance` exactly when
`available_balance < amount`, leaves the wallet unchanged on failure,
otherwise decrements the available balance by `amount` and creates exactly one
hold for the booking; consequently no sequence of reserve calls ever drives
`available_balance` negative. -/
theorem reserve_never_negative :
    (∀ (l : LedgerState) (amount bid : Nat),
        reserve l amount bid = .error .InsufficientBalance ↔
        l.available_balance < (amount : Int)) ∧
    (∀ (l : LedgerState) (amount bid : Nat), l.available_balance < (amount : Int) →
        reserveStep l (amount, bid) = l) ∧
    (∀ (l : LedgerState) (amount bid : Nat) (l' : LedgerState),
        reserve l amount bid = .ok l' →
        l'.available_balance = l.available_balance - (amount : Int) ∧
        l'.escrow_balance = l.escrow_balance + (amount : Int) ∧
        l'.holds = { booking_id := bid, amount := amount } :: l.holds ∧
        l'.provider_balance = l.provider_balance ∧
        l'.platform_balance = l.platform_balance) ∧
    (∀ (l : LedgerState) (reqs : List (Nat × Nat)), 0 ≤ l.available_balance →
        0 ≤ (reqs.foldl reserveStep l).available_balance) := by
  have step_nonneg : ∀ (l : LedgerState) (req : Nat × Nat), 0 ≤ l.available_balance →
      0 ≤ (reserveStep l req).available_balance := by
    intro l req hpos
    by_cases hc : l.available_balance < (req.1 : Int)
    · simpa [reserveStep, reserve, hc] using hpos
    · simp only [reserveStep, reserve, hc, if_false]
      omega
  refine ⟨?_, ?_, ?_, ?_⟩
  · intro l amount bid
    rw [reserve]
    by_cases hc : l.available_balance < (amount : Int) <;> simp [hc]
  · intro l amount bid hc
    simp [reserveStep, reserve, hc]
  · intro l amount bid l' hok
    rw [reserve] at hok
    by_cases hc : l.available_balance < (amount : Int)
    · rw [if_pos hc] at hok; exact absurd hok (by simp)
    · rw [if_neg hc] at hok
      injection hok with hok
      subst hok
      exact ⟨rfl, rfl, rfl, rfl, rfl⟩
  · intro l reqs
    induction reqs generalizing l with
    | nil => intro hpos; exact hpos
    | cons req rest ih =>
        intro hpos
        exact ih (reserveStep l req) (step_nonneg l req hpos)

/-- Witness for C5: 500 tokens, a successful 420-token hold, then a failing
200-token attempt; the balance never goes negative. -/
theorem reserve_never_negative_witness :
    (reserve { ledger500 with available_balance := 80 } 200 9 =
        .error .InsufficientBalance) ∧
    0 ≤ (([(420, 1), (200, 9)] : List (Nat × Nat)).foldl reserveStep
        ledger500).available_balance := by
  constructor
  · exact (reserve_never_negative.1 { ledger500 with available_balance := 80 } 200 9).mpr
      (by norm_num [ledger500])
  · exact reserve_never_negative.2.2.2 ledger500 [(420, 1), (200, 9)]
      (by norm_num [ledger500])

/-- **C3.** The total token price computed at creation equals
`hourly_rate × duration_hours` plus the 5% processing fee, and `total_tokens`
never changes after creation: neither the backend status transitions nor the
frontend list update touch it. -/
theorem total_tokens_immutable :
    (∀ (bid sid pid : Nat) (pname st : String) (dur hrate : Nat) (btype : BookingType)
        (loc req : Option String) (cat : String) (l : LedgerState) (b : Booking)
        (l' : LedgerState),
        createBooking bid sid pid pname st dur hrate btype loc req cat l = .ok (b, l') →
        b.total_tokens = hrate * dur + hrate * dur * 5 / 100) ∧
    (∀ (rate : ℚ) (s : SysState) (actor : Option User) (target : Status)
        (otp : Option String) (now : Nat),
        (updateBookingStatusSM rate s actor target otp now).1.booking.total_tokens =
          s.booking.total_tokens) ∧
    (∀ (bookings : List Booking) (bookingId : Nat) (status : Status) (serverOk : Bool)
        (i : Nat) (b' : Booking),
        (updateBookingStatusLocal bookings bookingId status serverOk)[i]? = some b' →
        ∃ b, bookings[i]? = some b ∧ b'.total_tokens = b.total_tokens) := by
  refine ⟨?_, ?_, ?_⟩
  · intro bid sid pid pname st dur hrate btype loc req cat l b l' hok
    rw [createBooking] at hok
    cases hres : reserve l (calculateTotalCost hrate dur) bid with
    | error e => rw [hres] at hok; exact absurd hok (by simp)
    | ok l2 =>
        rw [hres] at hok
        injection hok with hok
        injection hok with hok1 hok2
        rw [← hok1]
        rfl
  · intro rate s actor target otp now
    rw [updateBookingStatusSM.eq_def]
    cases target with
    | pending => rfl
    | confirmed =>
        simp only [actionFor]
        split <;> rfl
    | in_progress =>
        simp only [actionFor]
        repeat' split
        all_goals rfl
    | completed =>
        simp only [actionFor]
        repeat' split
        all_goals rfl
    | cancelled =>
        simp only [actionFor]
        repeat' split
        all_goals rfl
  · intro bookings bookingId status serverOk i b' h
    cases serverOk with
    | false =>
        rw [updateBookingStatusLocal, if_neg (by simp)] at h
        exact ⟨b', h, rfl⟩
    | true =>
        rw [updateBookingStatusLocal, if_pos rfl, setBookingsUpdate_getElem] at h
        obtain ⟨b, hb, hf⟩ := Option.map_eq_some'.mp h
        refine ⟨b, hb, ?_⟩
        by_cases hid : (b.id == bookingId) = true
        · rw [← hf, if_pos hid]
        · rw [← hf, if_neg hid]

/-- Witness for C3: a 2-hour booking at 200 tokens/hour totals
400 + 20 = 420 tokens. -/
theorem total_tokens_immutable_witness :
    booking1.total_tokens = 200 * 2 + 200 * 2 * 5 / 100 := by
  exact total_tokens_immutable.1 1 3 7 "Pat" "2025-01-01T10:00" 2 200
    BookingType.outcall none none "2024-12-30" ledger500 booking1 ledgerHeld1 rfl

/-- **C6.** OTP verification counts failed attempts of either purpose in one
shared cumulative counter, and once the counter has reached the lockout
threshold of 5, every further verify call — with a correct code included —
answers `TooManyAttempts` instead of success. -/
theorem otp_attempt_lockout :
    (∀ (g : GateState) (now : Nat) (code : String) (res : VerifyResult) (g' : GateState),
        verifyOtp g now code = (res, g') → res ≠ .success → res ≠ .TooManyAttempts →
        g'.attempts = g.attempts + 1 ∧ g'.challenges = g.challenges) ∧
    (∀ (g : GateState) (now : Nat) (code : String),
        MAX_OTP_ATTEMPTS ≤ g.attempts → verifyOtp g now code = (.TooManyAttempts, g)) ∧
    MAX_OTP_ATTEMPTS = 5 := by
  refine ⟨?_, ?_, rfl⟩
  · intro g now code res g' hv hns hnt
    rw [verifyOtp] at hv
    by_cases hl : MAX_OTP_ATTEMPTS ≤ g.attempts
    · rw [if_pos hl] at hv
      injection hv with h1 h2
      exact absurd h1.symm hnt
    · rw [if_neg hl] at hv
      by_cases hm : (g.challenges.any fun ch => ch.live now && ch.code == code) = true
      · rw [if_pos hm] at hv
        injection hv with h1 h2
        exact absurd h1.symm hns
      · rw [if_neg hm] at hv
        by_cases he : (g.challenges.any fun ch => !ch.consumed && ch.code == code) = true
        · rw [if_pos he] at hv
          injection hv with h1 h2
          rw [← h2]
          exact ⟨rfl, rfl⟩
        · rw [if_neg he] at hv
          injection hv with h1 h2
          rw [← h2]
          exact ⟨rfl, rfl⟩
  · intro g now code hl
    rw [verifyOtp, if_pos hl]

/-- Witness for C6: with five failed attempts recorded, even the correct live
code 123456 is rejected with `TooManyAttempts`; and a wrong code advances the
shared counter by one. -/
theorem otp_attempt_lockout_witness :
    verifyOtp gateLocked 0 "123456" = (.TooManyAttempts, gateLocked) ∧
    ({ gateLive with attempts := 1 } : GateState).attempts = gateLive.attempts + 1 := by
  constructor
  · exact otp_attempt_lockout.2.1 gateLocked 0 "123456" (by decide)
  · exact (otp_attempt_lockout.1 gateLive 0 "000000" .InvalidCode
      { gateLive with attempts := 1 } (by decide) (by decide) (by decide)).1

theorem codeOfNat_length (f : Nat) : (codeOfNat f).length = 6 := by
  show ((List.range 6).map fun i => Char.ofNat (48 + f / 10 ^ (5 - i) % 10)).length = 6
  simp

theorem codeOfNat_digits (f : Nat) : ∀ c ∈ (codeOfNat f).toList, c.isDigit = true := by
  intro c hc
  have hc2 : c ∈ (List.range 6).map fun i => Char.ofNat (48 + f / 10 ^ (5 - i) % 10) := hc
  obtain ⟨i, hi, rfl⟩ := List.mem_map.mp hc2
  set d := f / 10 ^ (5 - i) % 10 with hd
  have hd10 : d < 10 := Nat.mod_lt _ (by norm_num)
  interval_cases d <;> decide

/-- **C7.** `requestOtp(booking_id, purpose)` invalidates every live challenge
of the same purpose, creates a fresh 6-digit challenge, and returns the
generated code if and only if the purpose is `seeker_generated`; challenges
of the other purpose are untouched. -/
theorem requestOtp_spec (g : GateState) (now : Nat) (p : Purpose) (fresh : Nat) :
    ((requestOtp g now p fresh).2 ≠ none ↔ p = Purpose.seeker_generated) ∧
    (p = Purpose.seeker_generated →
      (requestOtp g now p fresh).2 = some (codeOfNat fresh)) ∧
    (∃ newCh rest, (requestOtp g now p fresh).1.challenges = newCh :: rest ∧
      newCh.purpose = p ∧ newCh.consumed = false ∧
      newCh.expires_at = now + 60 * expiryMinutes p ∧
      newCh.code.length = 6 ∧ ∀ c ∈ newCh.code.toList, c.isDigit = true) ∧
    (∀ ch ∈ g.challenges, ch.purpose = p → ch.live now = true →
      ({ ch with consumed := true } : OTPChallenge) ∈
        (requestOtp g now p fresh).1.challenges) ∧
    (∀ ch ∈ g.challenges, ch.purpose ≠ p →
      ch ∈ (requestOtp g now p fresh).1.challenges) := by
  refine ⟨?_, ?_, ?_, ?_, ?_⟩
  · rw [requestOtp]
    cases p <;> simp
  · intro hp
    subst hp
    rfl
  · exact ⟨_, _, rfl, rfl, rfl, rfl, codeOfNat_length fresh, codeOfNat_digits fresh⟩
  · intro ch hch hp hlive
    show _ ∈ _ :: g.challenges.map
      (fun c => if c.purpose == p && c.live now then { c with consumed := true } else c)
    apply List.mem_cons_of_mem
    have heq : (if ch.purpose == p && ch.live now then
        ({ ch with consumed := true } : OTPChallenge) else ch) =
        { ch with consumed := true } := by
      rw [if_pos (by simp [hp, hlive])]
    rw [← heq]
    exact List.mem_map_of_mem _ hch
  · intro ch hch hp
    show _ ∈ _ :: g.challenges.map
      (fun c => if c.purpose == p && c.live now then { c with consumed := true } else c)
    apply List.mem_cons_of_mem
    have heq : (if ch.purpose == p && ch.live now then
        ({ ch with consumed := true } : OTPChallenge) else ch) = ch := by
      rw [if_neg (by simp [hp])]
    rw [← heq]
    exact List.mem_map_of_mem _ hch

/-- Witness for C7: regenerating the seeker OTP returns the fresh code to the
caller and supersedes the previously live seeker challenge. -/
theorem requestOtp_spec_witness :
    (requestOtp gateLive 0 Purpose.seeker_generated 42).2 = some (codeOfNat 42) ∧
    ({ purpose := Purpose.seeker_generated, code := "123456", expires_at := 1800,
       consumed := true } : OTPChallenge) ∈
      (requestOtp gateLive 0 Purpose.seeker_generated 42).1.challenges := by
  constructor
  · exact (requestOtp_spec gateLive 0 Purpose.seeker_generated 42).2.1 rfl
  · exact (requestOtp_spec gateLive 0 Purpose.seeker_generated 42).2.2.2.1
      { purpose := Purpose.seeker_generated, code := "123456", expires_at := 1800,
        consumed := false }
      (by decide) rfl (by decide)

theorem hitCount_append (n c i k m : Nat) :
    hitCount n c i (k + m) = hitCount n c i k + hitCount n (c + k) i m := by
  induction m with
  | zero => rfl
  | succ m ih =>
      show hitCount n c i ((k + m) + 1) = _
      simp only [hitCount, ih, ← Nat.add_assoc c k m]
      exact Nat.add_assoc _ _ _

theorem hitCount_shift (n c i k : Nat) :
    hitCount n (c + n) i k = hitCount n c i k := by
  induction k with
  | zero => rfl
  | succ k ih =>
      have hmod : (c + n + k) % n = (c + k) % n := by
        rw [show c + n + k = c + k + n from by omega, Nat.add_mod_right]
      simp only [hitCount, ih, hmod]

theorem hitCount_eq_card (n c i k : Nat) :
    hitCount n c i k = ((Finset.range k).filter (fun j => (c + j) % n = i)).card := by
  induction k with
  | zero => rfl
  | succ k ih =>
      rw [Finset.range_succ, Finset.filter_insert]
      by_cases hk : (c + k) % n = i
      · rw [if_pos hk, Finset.card_insert_of_not_mem (by simp)]
        simp only [hitCount, ih, hk, if_pos]
      · rw [if_neg hk]
        simp only [hitCount, ih, hk, if_neg, Nat.add_zero, if_false]

theorem hit_mod_eq (n c i : Nat) (hn : 0 < n) (hi : i < n) :
    (c + (i + n - c % n) % n) % n = i := by
  have ha : c % n < n := Nat.mod_lt _ hn
  have h1 : (c + (i + n - c % n) % n) % n = (c % n + (i + n - c % n)) % n :=
    Nat.ModEq.add ((Nat.mod_modEq c n).symm) (Nat.mod_modEq _ n)
  have h2 : c % n + (i + n - c % n) = i + n := by omega
  rw [h1, h2, Nat.add_mod_right, Nat.mod_eq_of_lt hi]

theorem hit_mod_unique (n c i j : Nat) (hn : 0 < n) (hi : i < n) (hj : j < n)
    (h : (c + j) % n = i) : j = (i + n - c % n) % n := by
  have ha : c % n < n := Nat.mod_lt _ hn
  have hcj : (c + j) % n = (c % n + j) % n := by
    rw [Nat.add_mod, Nat.mod_eq_of_lt hj]
  rw [hcj] at h
  by_cases hlt : c % n + j < n
  · rw [Nat.mod_eq_of_lt hlt] at h
    subst h
    rw [show c % n + j + n - c % n = j + n from by omega, Nat.add_mod_right,
      Nat.mod_eq_of_lt hj]
  · push_neg at hlt
    have hmod : (c % n + j) % n = c % n + j - n := by
      rw [Nat.mod_eq_sub_mod hlt, Nat.mod_eq_of_lt (by omega)]
    rw [hmod] at h
    rw [show i + n - c % n = j from by omega, Nat.mod_eq_of_lt hj]

theorem hitCount_cycle (n c i : Nat) (hn : 0 < n) (hi : i < n) :
    hitCount n c i n = 1 := by
  rw [hitCount_eq_card, Finset.card_eq_one]
  refine ⟨(i + n - c % n) % n, ?_⟩
  ext j
  simp only [Finset.mem_filter, Finset.mem_range, Finset.mem_singleton]
  constructor
  · rintro ⟨hj, h⟩
    exact hit_mod_unique n c i j hn hi hj h
  · rintro rfl
    exact ⟨Nat.mod_lt _ hn, hit_mod_eq n c i hn hi⟩

theorem hitCount_le_of_le (n c i : Nat) {r k : Nat} (h : r ≤ k) :
    hitCount n c i r ≤ hitCount n c i k := by
  obtain ⟨m, rfl⟩ := Nat.exists_eq_add_of_le h
  rw [hitCount_append]
  omega

theorem hitCount_mul_add (n c i : Nat) (hn : 0 < n) (hi : i < n) (q r : Nat) :
    hitCount n c i (n * q + r) = q + hitCount n c i r := by
  induction q with
  | zero => rw [Nat.mul_zero, Nat.zero_add, Nat.zero_add]
  | succ q ih =>
      rw [show n * (q + 1) + r = n + (n * q + r) from by ring,
        hitCount_append n c i n (n * q + r), hitCount_cycle n c i hn hi,
        hitCount_shift, ih]
      omega

/-- Fairness of the rotation counts: within any `k` consecutive calls each
index is hit either `⌊k/n⌋` or `⌈k/n⌉` times. -/
theorem hitCount_fair (n c i k : Nat) (hn : 0 < n) (hi : i < n) :
    hitCount n c i k = k / n ∨ hitCount n c i k = (k + n - 1) / n := by
  have hsplit : hitCount n c i k = k / n + hitCount n c i (k % n) := by
    conv_lhs => rw [← Nat.div_add_mod k n]
    exact hitCount_mul_add n c i hn hi (k / n) (k % n)
  have hr : k % n < n := Nat.mod_lt _ hn
  have hle1 : hitCount n c i (k % n) ≤ 1 :=
    le_trans (hitCount_le_of_le n c i (le_of_lt hr)) (le_of_eq (hitCount_cycle n c i hn hi))
  rcases Nat.le_one_iff_eq_zero_or_eq_one.mp hle1 with h0 | h1
  · left
    rw [hsplit, h0]
    exact Nat.add_zero _
  · right
    rw [hsplit, h1]
    have hrpos : 0 < k % n := by
      rcases Nat.eq_zero_or_pos (k % n) with hz | hp
      · rw [hz] at h1
        exact absurd h1 (by simp [hitCount])
      · exact hp
    have hq := Nat.div_add_mod k n
    have hstep : (k + n - 1) / n = k / n + 1 := by
      have h1' : k + n - 1 = n * (k / n + 1) + (k % n - 1) := by
        have hmul : n * (k / n + 1) = n * (k / n) + n := by ring
        rw [hmul]
        omega
      have hlt : k % n - 1 < n := by omega
      calc (k + n - 1) / n = (n * (k / n + 1) + (k % n - 1)) / n := by rw [h1']
        _ = (k / n + 1) + (k % n - 1) / n := Nat.mul_add_div hn _ _
        _ = k / n + 1 := by rw [Nat.div_eq_of_lt hlt, Nat.add_zero]
    rw [hstep]

theorem hitCount_eq_countP (n c i k : Nat) :
    hitCount n c i k = (List.range k).countP (fun j => decide ((c + j) % n = i)) := by
  induction k with
  | zero => rfl
  | succ k ih =>
      rw [List.range_succ, List.countP_append]
      by_cases hk : (c + k) % n = i <;>
        simp [hitCount, ih, hk, List.countP_cons]

theorem nextStaff_nonempty (l : List Nat) (c : Nat) (h : l ≠ []) :
    nextStaff ⟨l, c⟩ = .ok (l.get ⟨c % l.length, Nat.mod_lt _ (List.length_pos.mpr h)⟩,
      ⟨l, (c + 1) % l.length⟩) := by
  have hne : ¬(l.length = 0) := by simpa [List.length_eq_zero] using h
  rw [nextStaff, dif_neg hne]

theorem runNext_sel (l : List Nat) (h : l ≠ []) (c k : Nat) :
    (runNext ⟨l, c⟩ k).1 = (List.range k).map
      (fun j => l.get ⟨(c + j) % l.length, Nat.mod_lt _ (List.length_pos.mpr h)⟩) := by
  induction k generalizing c with
  | zero => rfl
  | succ k ih =>
      rw [runNext, nextStaff_nonempty l c h]
      show l.get ⟨c % l.length, Nat.mod_lt _ (List.length_pos.mpr h)⟩ ::
          (runNext ⟨l, (c + 1) % l.length⟩ k).1 =
        List.map _ (List.range (k + 1))
      rw [ih ((c + 1) % l.length), List.range_succ_eq_map, List.map_cons, List.map_map]
      refine congrArg₂ List.cons rfl ?_
      apply List.map_congr_left
      intro j hj
      have hidx : ((c + 1) % l.length + j) % l.length = (c + (j + 1)) % l.length := by
        rw [Nat.mod_add_mod]
        congr 1
        omega
      exact congrArg l.get (Fin.ext hidx)

theorem count_sel (l : List Nat) (hnd : l.Nodup) (h : l ≠ []) (c k i : Nat)
    (hi : i < l.length) :
    (runNext ⟨l, c⟩ k).1.count (l.get ⟨i, hi⟩) = hitCount l.length c i k := by
  rw [runNext_sel l h c k, hitCount_eq_countP, List.count, List.countP_map]
  apply List.countP_congr
  intro j hj
  simp only [Function.comp_apply, beq_iff_eq, decide_eq_true_eq]
  constructor
  · intro hEq
    exact congrArg Fin.val (hnd.get_inj_iff.mp hEq)
  · intro hEq
    exact congrArg l.get (Fin.ext hEq)

/-- **C8.** `next(pool)` fails with `NoAvailableStaff` on an empty active list
(the work item stays unassigned); otherwise it returns
`active_list[c mod len]` and advances the persisted cursor to
`(c + 1) mod len`, so that k consecutive calls select the members in strict
rotating order starting from the cursor, each `⌊k/n⌋` or `⌈k/n⌉` times. -/
theorem round_robin_fairness :
    (∀ p : AssignmentPool, p.active_list = [] →
      nextStaff p = .error .NoAvailableStaff ∧
      ∀ w : WorkItem, assign w p = (w, p)) ∧
    (∀ (l : List Nat) (c : Nat) (h : l ≠ []),
      nextStaff ⟨l, c⟩ = .ok
        (l.get ⟨c % l.length, Nat.mod_lt _ (List.length_pos.mpr h)⟩,
         ⟨l, (c + 1) % l.length⟩)) ∧
    (∀ (l : List Nat) (c k : Nat) (h : l ≠ []),
      (runNext ⟨l, c⟩ k).1 = (List.range k).map
        (fun j => l.get ⟨(c + j) % l.length, Nat.mod_lt _ (List.length_pos.mpr h)⟩)) ∧
    (∀ (l : List Nat) (c k i : Nat), l.Nodup → ∀ hi : i < l.length,
      (runNext ⟨l, c⟩ k).1.count (l.get ⟨i, hi⟩) = k / l.length ∨
      (runNext ⟨l, c⟩ k).1.count (l.get ⟨i, hi⟩) = (k + l.length - 1) / l.length) := by
  refine ⟨?_, ?_, ?_, ?_⟩
  · intro p hp
    have h0 : p.active_list.length = 0 := by rw [hp]; rfl
    exact ⟨by rw [nextStaff, dif_pos h0],
      fun w => by rw [assign, nextStaff, dif_pos h0]⟩
  · exact fun l c h => nextStaff_nonempty l c h
  · exact fun l c k h => runNext_sel l h c k
  · intro l c k i hnd hi
    have hpos : 0 < l.length := Nat.lt_of_le_of_lt (Nat.zero_le i) hi
    have hne : l ≠ [] := List.length_pos.mp hpos
    rw [count_sel l hnd hne c k i hi]
    exact hitCount_fair l.length c i k hpos hi

/-- Witness for C8: the empty pool refuses with `NoAvailableStaff`, and a
three-member pool serves member 10 twice in four consecutive calls. -/
theorem round_robin_fairness_witness :
    (nextStaff poolEmpty = .error .NoAvailableStaff ∧
      assign workItem0 poolEmpty = (workItem0, poolEmpty)) ∧
    ((runNext { active_list := [10, 20, 30], cursor := 0 } 4).1.count 10 = 4 / 3 ∨
      (runNext { active_list := [10, 20, 30], cursor := 0 } 4).1.count 10 =
        (4 + 3 - 1) / 3) := by
  constructor
  · obtain ⟨h1, h2⟩ := round_robin_fairness.1 poolEmpty rfl
    exact ⟨h1, h2 workItem0⟩
  · exact round_robin_fairness.2.2.2 [10, 20, 30] 0 4 0 (by decide) (by decide)

end ChillConnect

